import Mathlib

/-!
Shallow embedding of `src/hackathon/app.js` (the capture-to-match pipeline
controller of the Aushadhi-OCR app).

The React component state hooks become fields of `AppState`; the async
handlers are decomposed at their `await` points into atomic segments, and the
event step function `step` applies one segment.  The job identifiers
(`jobCounter`, `pendingRecog`, `pendingFetch`) are model bookkeeping naming
which in-flight `recognize` / `fetch` call an event resolves; the JS code has
no such identifiers and the handlers never branch on them (proved below: the
published-state effect of a late callback is independent of the job id).
Side effects that leave the component (alert dialogs, `recognize` calls,
`fetch` requests, `terminate`) are collected in effect lists.
-/

/-- JS `Math.round`: round half toward positive infinity, i.e. floor of
the argument plus one half. -/
def mathRound (q : ℚ) : ℤ := Int.floor (q + 1/2)

/-- A backend match, a JSON object with a name and a score in the unit
interval where lower is a better match. -/
structure MatchResult where
  name : String
  score : ℚ
deriving DecidableEq

/-- Parsed JSON body of a successful `/api/search` response: an optional
`matches` array and an optional `warning` string; `none` models an absent
field. -/
structure SearchResponse where
  «matches» : Option (List MatchResult)
  warning : Option String
deriving DecidableEq

/-- Outcome of `workerRef.current.recognize(dataUrl)`.  `success d` carries
`data.text` where `none` models a null or missing `data` / `data.text` and
`some ""` a falsy empty string; `failure` models the promise rejecting. -/
inductive RecogResult where
  | success (text : Option String)
  | failure
deriving DecidableEq

/-- Outcome of the `fetch` inside `queryBackend`.  `ok body` means `res.ok`
held and the body parsed; `notOk bodyText` a non-2xx response whose text was
read; `reject` any rejection inside the `try` block (the `fetch` itself,
`res.text()` or `res.json()`), all of which reach the same `catch`. -/
inductive FetchResult where
  | ok (body : SearchResponse)
  | notOk (bodyText : String)
  | reject
deriving DecidableEq

/-- Externally visible actions of the component. -/
inductive Effect where
  | alertEff (msg : String)
  | recognizeEff (job : Nat) (image : String)
  | fetchEff (job : Nat) (text : String)
  | terminateEff
deriving DecidableEq

/-- The React component state: the seven `useState` hooks plus whether
`workerRef.current` is set, together with the model-only bookkeeping fields
`jobCounter`, `pendingRecog` and `pendingFetch` naming in-flight async
calls. -/
structure AppState where
  imageSrc : Option String
  ocrText : String
  «matches» : List MatchResult
  warning : Option String
  loadingOcr : Bool
  ocrProgress : ℤ
  isWorkerReady : Bool
  workerPresent : Bool
  jobCounter : Nat
  pendingRecog : List Nat
  pendingFetch : List Nat
deriving DecidableEq

/-- Initial state on mount. -/
def init0 : AppState :=
  { imageSrc := none, ocrText := "", «matches» := [], warning := none,
    loadingOcr := false, ocrProgress := 0, isWorkerReady := false,
    workerPresent := false, jobCounter := 0, pendingRecog := [],
    pendingFetch := [] }

/-- The worker `logger` callback: only messages whose status equals
`recognizing text` and whose progress is a number update the published
progress, as the progress times 100 rounded by `Math.round`; every other
message leaves it unchanged. -/
def loggerUpdate (status : String) (progress : Option ℚ) (cur : ℤ) : ℤ :=
  if status = "recognizing text" then
    match progress with
    | some p => mathRound (p * 100)
    | none => cur
  else cur

/-- JS `String.prototype.trim`, modelled structurally over the character
list: drop leading and trailing whitespace. -/
def jsTrim (s : String) : String :=
  ⟨((s.data.dropWhile Char.isWhitespace).reverse.dropWhile Char.isWhitespace).reverse⟩

/-- The text extraction line of `runOcr`: `data.text` trimmed when `data` and
`data.text` are truthy, the empty string otherwise. -/
def extractText (d : Option String) : String :=
  match d with
  | some t => if t = "" then "" else jsTrim t
  | none => ""

/-- Synchronous prefix of `queryBackend(text)` up to and including issuing the
`fetch`: matches and warning are cleared; empty or whitespace-only text
short-circuits with the synthesized warning and no request. -/
def queryBackendStart (s : AppState) (job : Nat) (text : String) :
    AppState × List Effect :=
  let s1 := { s with «matches» := [], warning := none }
  if text = "" ∨ jsTrim text = "" then
    ({ s1 with warning := some "No text found by OCR." }, [])
  else
    ({ s1 with pendingFetch := job :: s1.pendingFetch },
     [Effect.fetchEff job text])

/-- Resumption of `queryBackend` once its `fetch` settles: on `ok`, matches
default to the empty list when absent and a truthy warning is copied over; a
non-2xx response or a rejection set the corresponding generic warning. -/
def queryBackendResume (s : AppState) (job : Nat) (r : FetchResult) :
    AppState × List Effect :=
  let s1 := { s with pendingFetch := s.pendingFetch.erase job }
  match r with
  | FetchResult.ok body =>
      let s2 := { s1 with «matches» := body.«matches».getD [] }
      match body.warning with
      | some w => if w = "" then (s2, []) else ({ s2 with warning := some w }, [])
      | none => (s2, [])
  | FetchResult.notOk _ =>
      ({ s1 with warning := some "Server error when searching. Check backend." }, [])
  | FetchResult.reject =>
      ({ s1 with warning := some "Network error when contacting backend." }, [])

/-- Resumption of `runOcr` once `recognize` settles, returning the text that
the awaited `runOcr` call yields to the calling handler: on success the
trimmed text is published and returned, on failure only the loading flag is
dropped and the empty string returned. -/
def runOcrResume (s : AppState) (job : Nat) (r : RecogResult) :
    AppState × String :=
  let s1 := { s with pendingRecog := s.pendingRecog.erase job }
  match r with
  | RecogResult.success d =>
      let text := extractText d
      ({ s1 with ocrText := text, loadingOcr := false }, text)
  | RecogResult.failure =>
      ({ s1 with loadingOcr := false }, "")

/-- One settled `recognize` call: the resumption of `runOcr` followed by the
calling handler running `queryBackend(text)` up to its `fetch`. -/
def onRecognize (s : AppState) (job : Nat) (r : RecogResult) :
    AppState × List Effect :=
  let p := runOcrResume s job r
  queryBackendStart p.1 job p.2

/-- Body of a handler from the point the image preview is set: the synchronous
part of the awaited `runOcr(dataUrl)` up to its first suspension.  When the
worker ref is null the guard alerts and yields the empty string, after which
the handler immediately runs `queryBackend` on that empty string; otherwise
loading, text and progress are reset and a `recognize` call goes out. -/
def startPipeline (s : AppState) (dataUrl : String) : AppState × List Effect :=
  if s.workerPresent then
    let j := s.jobCounter
    ({ s with loadingOcr := true, ocrText := "", ocrProgress := 0,
              jobCounter := j + 1, pendingRecog := j :: s.pendingRecog },
     [Effect.recognizeEff j dataUrl])
  else
    let p := queryBackendStart s s.jobCounter ""
    (p.1, Effect.alertEff "OCR engine not ready yet. Please wait a moment." :: p.2)

/-- `handleCapture`: a falsy screenshot alerts and returns with nothing else
touched; otherwise the preview is set and the pipeline starts. -/
def handleCapture (s : AppState) (shot : Option String) : AppState × List Effect :=
  match shot with
  | none => (s, [Effect.alertEff "Could not capture image from camera."])
  | some img =>
      if img = "" then (s, [Effect.alertEff "Could not capture image from camera."])
      else startPipeline { s with imageSrc := some img } img

/-- `handleFileChange`: no selected file returns immediately; otherwise the
FileReader onload continuation sets the preview and starts the pipeline.
Note: unlike the capture button, the file input is never disabled and this
path performs no readiness check of its own. -/
def handleFileChange (s : AppState) (file : Option String) : AppState × List Effect :=
  match file with
  | none => (s, [])
  | some dataUrl => startPipeline { s with imageSrc := some dataUrl } dataUrl

/-- The useEffect cleanup: when the worker ref is set, await `terminate` in a
try block whose catch ignores the error.  The argument is the result the
terminate call settles with; a propagated failure would surface as
`Except.error`, the catch swallows it. -/
def cleanup (workerPresent : Bool) (terminateResult : Except String Unit) :
    Except String (List Effect) :=
  if workerPresent then
    match terminateResult with
    | Except.ok _ => Except.ok [Effect.terminateEff]
    | Except.error _ => Except.ok [Effect.terminateEff]
  else
    Except.ok []

/-- The clamp inside `scoreToPercent`: the inverted percentage rounded, then
clamped into the range 0 to 100 by `Math.max` and `Math.min`. -/
def displayedPercent (score : ℚ) : ℤ :=
  max 0 (min 100 (mathRound ((1 - score) * 100)))

/-- `scoreToPercent`: a non-number score displays as a dash, a number as the
clamped inverted percentage with a percent sign. -/
def scoreToPercent (score : Option ℚ) : String :=
  match score with
  | none => "—"
  | some q => toString (displayedPercent q) ++ "%"

/-- External events driving the component, one per atomic segment. -/
inductive Ev where
  | initStarted
  | initDone
  | captureClick (shot : Option String)
  | fileChange (file : Option String)
  | loggerMsg (status : String) (progress : Option ℚ)
  | recognizeRet (job : Nat) (r : RecogResult)
  | fetchRet (job : Nat) (r : FetchResult)
deriving DecidableEq

/-- One atomic segment of the component.  `initStarted` is the synchronous
prefix of `initWorker` (the worker ref becomes non-null, the logger is
registered); `initDone` its resumption after the engine finished loading and
initializing. -/
def step (s : AppState) : Ev → AppState × List Effect
  | Ev.initStarted => ({ s with workerPresent := true }, [])
  | Ev.initDone => ({ s with isWorkerReady := true }, [])
  | Ev.captureClick shot => handleCapture s shot
  | Ev.fileChange file => handleFileChange s file
  | Ev.loggerMsg st p =>
      ({ s with ocrProgress := loggerUpdate st p s.ocrProgress }, [])
  | Ev.recognizeRet j r => onRecognize s j r
  | Ev.fetchRet j r => queryBackendResume s j r

/-- Which events can occur in a state: the capture button is disabled until
`isWorkerReady`; a settle event must resolve a pending call; the init events
occur once, in order.  The upload input is never disabled. -/
def evValid (s : AppState) : Ev → Bool
  | Ev.initStarted => !s.workerPresent
  | Ev.initDone => s.workerPresent && !s.isWorkerReady
  | Ev.captureClick _ => s.isWorkerReady
  | Ev.fileChange _ => true
  | Ev.loggerMsg _ _ => true
  | Ev.recognizeRet j _ => s.pendingRecog.contains j
  | Ev.fetchRet j _ => s.pendingFetch.contains j

/-- Run a list of events from a state. -/
def run : AppState → List Ev → AppState
  | s, [] => s
  | s, e :: es => run (step s e).1 es

/-- Every event of the list is valid in the state it hits. -/
def validTrace : AppState → List Ev → Bool
  | _, [] => true
  | s, e :: es => evValid s e && validTrace (step s e).1 es

/-- The published presentation fields named by the superseded-job claim:
extracted text, progress, matches, warning. -/
def published (s : AppState) : String × ℤ × List MatchResult × Option String :=
  (s.ocrText, s.ocrProgress, s.«matches», s.warning)

/-- One logger notification folded into the published progress. -/
def loggerStep (cur : ℤ) (n : String × Option ℚ) : ℤ :=
  loggerUpdate n.1 n.2 cur

/-- Published progress sequence of one job: the reset to 0 at job start,
followed by the folded notification stream. -/
def progressTrace (ns : List (String × Option ℚ)) : List ℤ :=
  List.scanl loggerStep 0 ns

/-- The numeric progress values of recognition-stage notifications, in
order. -/
def recogProgresses (ns : List (String × Option ℚ)) : List ℚ :=
  ns.filterMap (fun n => if n.1 = "recognizing text" then n.2 else none)

/-- Monotonicity of the rounded percentage. -/
lemma mathRound_mono {p q : ℚ} (h : p ≤ q) : mathRound (p * 100) ≤ mathRound (q * 100) := by
  unfold mathRound
  apply Int.floor_le_floor
  nlinarith

/-- The rounded percentage of a nonnegative fraction is nonnegative. -/
lemma mathRound_nonneg {p : ℚ} (h : 0 ≤ p) : 0 ≤ mathRound (p * 100) := by
  unfold mathRound
  have hx : ((0 : ℤ) : ℚ) ≤ p * 100 + 1/2 := by push_cast; nlinarith
  exact Int.le_floor.mpr hx

/-- The rounded percentage of a fraction at most one is at most one hundred. -/
lemma mathRound_le_100 {p : ℚ} (h : p ≤ 1) : mathRound (p * 100) ≤ 100 := by
  unfold mathRound
  have hx : p * 100 + 1/2 < ((101 : ℤ) : ℚ) := by push_cast; nlinarith
  have := Int.floor_lt.mpr hx
  omega

/-- C3: when the extracted text is empty (a missing or empty or
whitespace-only `data.text`), the settled recognize call publishes exactly
the empty match list and the warning `No text found by OCR.`, and issues no
effect at all — in particular no fetch request. -/
theorem C3_emptyText (s : AppState) (j : Nat) (d : Option String)
    (h : extractText d = "") :
    step s (Ev.recognizeRet j (RecogResult.success d)) =
      ({ s with pendingRecog := s.pendingRecog.erase j, ocrText := "",
                loadingOcr := false, «matches» := [],
                warning := some "No text found by OCR." }, []) := by
  simp [step, onRecognize, runOcrResume, queryBackendStart, h]

/-- C3 witness: a whitespace-only recognition result in the initial state. -/
theorem C3_emptyText_witness :
    step init0 (Ev.recognizeRet 0 (RecogResult.success (some "   "))) =
      ({ init0 with pendingRecog := init0.pendingRecog.erase 0, ocrText := "",
                    loadingOcr := false, «matches» := [],
                    warning := some "No text found by OCR." }, []) :=
  C3_emptyText init0 0 (some "   ") (by decide)

/-- C4 counterexample: the claim says a failing recognize call clears the
published progress; in the code the catch block only drops the loading flag,
so the progress keeps the last value the logger reported.  Concretely: after
a capture, the engine reports recognition progress one half (published 50),
then recognize rejects — the published progress afterwards is still 50, not
0 (while text is empty and loading is off, as the claim also says). -/
theorem C4_counterexample :
    let t := [Ev.initStarted, Ev.initDone, Ev.captureClick (some "img"),
              Ev.loggerMsg "recognizing text" (some (1/2))]
    validTrace init0 t = true ∧
    (run init0 t).ocrProgress = 50 ∧
    ((step (run init0 t) (Ev.recognizeRet 0 RecogResult.failure)).1.ocrProgress = 50 ∧
     (step (run init0 t) (Ev.recognizeRet 0 RecogResult.failure)).1.ocrText = "" ∧
     (step (run init0 t) (Ev.recognizeRet 0 RecogResult.failure)).1.loadingOcr = false) ∧
    ¬ (step (run init0 t) (Ev.recognizeRet 0 RecogResult.failure)).1.ocrProgress = 0 := by
  have h50 : mathRound ((2 : ℚ)⁻¹ * 100) = 50 := by
    unfold mathRound
    rw [Int.floor_eq_iff]
    constructor <;> push_cast <;> norm_num
  refine ⟨by decide, ?_, ⟨?_, by decide, by decide⟩, ?_⟩ <;>
    simp [run, step, validTrace, evValid, handleCapture, startPipeline,
          onRecognize, runOcrResume, queryBackendStart, loggerUpdate, init0, h50]

/-- C4 (amended): when the recognize call fails, loading ends, the extracted
text is treated as empty (the catch yields the empty string, the text state
keeps the empty value set at job start), the empty-text outcome is published
(matches cleared, warning `No text found by OCR.`), no fetch request is
issued and no exception propagates — but the published progress is not
reset: it keeps the last value the logger reported (it is reset only when
the next job starts). -/
theorem C4_recognitionFailure (s : AppState) (j : Nat) :
    step s (Ev.recognizeRet j RecogResult.failure) =
      ({ s with pendingRecog := s.pendingRecog.erase j, loadingOcr := false,
                «matches» := [], warning := some "No text found by OCR." }, []) := by
  simp [step, onRecognize, runOcrResume, queryBackendStart]

/-- C8: the cleanup calls terminate exactly once whenever the worker ref is
set (its effect list is exactly one terminate action), and it never
propagates a failure: whatever the terminate call settles with, the cleanup
returns normally.  It reads no pipeline state at all, so an in-flight job
cannot affect it. -/
theorem C8_cleanup (tr : Except String Unit) :
    cleanup true tr = Except.ok [Effect.terminateEff] ∧
    cleanup false tr = Except.ok [] := by
  refine ⟨?_, rfl⟩
  cases tr <;> rfl

/-- C10: a falsy screenshot (null, or an empty data URL) makes the capture
handler alert and return: the state — preview, text, progress, loading,
matches, warning — is returned unchanged, and the only effect is the alert:
no recognize call, no fetch request. -/
theorem C10_nullCapture (s : AppState) :
    step s (Ev.captureClick none) =
      (s, [Effect.alertEff "Could not capture image from camera."]) ∧
    step s (Ev.captureClick (some "")) =
      (s, [Effect.alertEff "Could not capture image from camera."]) :=
  ⟨rfl, rfl⟩

/-- C1 counterexample: after init the user captures twice in quick
succession; job 0 is still recognizing when job 1 starts (so job 0 is
superseded, two jobs have been numbered and job 0 is still pending), yet the
late resolution of the superseded recognize call still changes the published
state — the code has no staleness check, contradicting the claim that late
callbacks of a superseded job never mutate published state. -/
theorem C1_counterexample :
    let t := [Ev.initStarted, Ev.initDone, Ev.captureClick (some "img1"),
              Ev.captureClick (some "img2")]
    validTrace init0 t = true ∧
    (run init0 t).pendingRecog.contains 0 = true ∧
    0 + 1 < (run init0 t).jobCounter ∧
    published (step (run init0 t)
        (Ev.recognizeRet 0 (RecogResult.success (some "TEXT1")))).1 ≠
      published (run init0 t) := by
  decide

/-- C1 (amended): the handlers contain no job-identity check at all, so a
superseded job is not discarded: its late recognition and catalog callbacks
update the published state exactly as the current job would — the
published-state effect of a settling callback is independent of which
pending job it belongs to, and the observable state is simply
last-write-wins. -/
theorem C1_lastWriteWins :
    (∀ (s : AppState) (j j' : Nat) (r : RecogResult),
        published (onRecognize s j r).1 = published (onRecognize s j' r).1) ∧
    (∀ (s : AppState) (j j' : Nat) (r : FetchResult),
        published (queryBackendResume s j r).1 =
          published (queryBackendResume s j' r).1) := by
  constructor
  · intro s j j' r
    cases r with
    | success d =>
        by_cases h : (extractText d = "" ∨ jsTrim (extractText d) = "") <;>
          simp [onRecognize, runOcrResume, queryBackendStart, published, h]
    | failure => rfl
  · intro s j j' r
    cases r with
    | ok body =>
        cases hb : body.warning with
        | some w =>
            by_cases hw : w = "" <;>
              simp [queryBackendResume, published, hb, hw]
        | none => simp [queryBackendResume, published, hb]
    | notOk b => rfl
    | reject => rfl

/-- C2 counterexample: right after initialization begins (worker ref set,
engine not yet Ready), choosing a file is a valid trace, and the upload
handler issues a recognize call and changes the pipeline state — the start
is not refused, contradicting the claim that every start trigger is refused
with no recognize call and no state change while the engine is not Ready. -/
theorem C2_counterexample :
    (run init0 [Ev.initStarted]).isWorkerReady = false ∧
    validTrace init0 [Ev.initStarted, Ev.fileChange (some "img")] = true ∧
    (step (run init0 [Ev.initStarted]) (Ev.fileChange (some "img"))).2 =
      [Effect.recognizeEff 0 "img"] ∧
    (step (run init0 [Ev.initStarted]) (Ev.fileChange (some "img"))).1 ≠
      run init0 [Ev.initStarted] := by
  decide

/-- C2 (amended): only the camera-capture trigger is gated on readiness, by
disabling the button.  The upload trigger is never refused for readiness: if
the worker object does not exist yet the handler alerts and makes no
recognize call, but it still sets the preview and publishes the empty-text
outcome; and as soon as initialization has started (worker object present,
engine not necessarily Ready) an upload creates a job and issues a recognize
call. -/
theorem C2_startGating :
    (∀ (s : AppState) (shot : Option String),
        s.isWorkerReady = false → evValid s (Ev.captureClick shot) = false) ∧
    (∀ (s : AppState) (f : String), s.workerPresent = false →
        step s (Ev.fileChange (some f)) =
          ({ s with imageSrc := some f, «matches» := [],
                    warning := some "No text found by OCR." },
           [Effect.alertEff "OCR engine not ready yet. Please wait a moment."])) ∧
    (∀ (s : AppState) (f : String), s.workerPresent = true →
        (step s (Ev.fileChange (some f))).2 =
          [Effect.recognizeEff s.jobCounter f] ∧
        (step s (Ev.fileChange (some f))).1.loadingOcr = true ∧
        (step s (Ev.fileChange (some f))).1.pendingRecog =
          s.jobCounter :: s.pendingRecog) := by
  refine ⟨?_, ?_, ?_⟩
  · intro s shot h
    simp [evValid, h]
  · intro s f h
    simp [step, handleFileChange, startPipeline, queryBackendStart, h]
  · intro s f h
    simp [step, handleFileChange, startPipeline, h]

/-- C2 witness: the refusal branch on the fresh state and the non-refusal
branch right after initialization begins. -/
theorem C2_startGating_witness :
    evValid init0 (Ev.captureClick (some "img")) = false ∧
    step init0 (Ev.fileChange (some "img")) =
      ({ init0 with imageSrc := some "img", «matches» := [],
                    warning := some "No text found by OCR." },
       [Effect.alertEff "OCR engine not ready yet. Please wait a moment."]) ∧
    (step (run init0 [Ev.initStarted]) (Ev.fileChange (some "img"))).2 =
      [Effect.recognizeEff (run init0 [Ev.initStarted]).jobCounter "img"] ∧
    (step (run init0 [Ev.initStarted]) (Ev.fileChange (some "img"))).1.loadingOcr = true ∧
    (step (run init0 [Ev.initStarted]) (Ev.fileChange (some "img"))).1.pendingRecog =
      (run init0 [Ev.initStarted]).jobCounter :: (run init0 [Ev.initStarted]).pendingRecog :=
  ⟨C2_startGating.1 init0 (some "img") rfl,
   C2_startGating.2.1 init0 "img" rfl,
   (C2_startGating.2.2 (run init0 [Ev.initStarted]) "img" rfl).1,
   (C2_startGating.2.2 (run init0 [Ev.initStarted]) "img" rfl).2.1,
   (C2_startGating.2.2 (run init0 [Ev.initStarted]) "img" rfl).2.2⟩

/-- C6 counterexample: a successful response whose `warning` field is present
but the empty string is not passed through: after a full job whose backend
answers with such a body, the published warning is still `none` rather than
the present (empty) warning — the truthiness check drops it, contradicting
the claim that a present warning is passed through verbatim. -/
theorem C6_counterexample :
    let t := [Ev.initStarted, Ev.initDone, Ev.captureClick (some "img"),
              Ev.recognizeRet 0 (RecogResult.success (some "ABC")),
              Ev.fetchRet 0 (FetchResult.ok
                { «matches» := some [{ name := "Paracetamol", score := 1/10 }],
                  warning := some "" })]
    validTrace init0 t = true ∧
    (run init0 t).warning = none ∧
    ¬ (run init0 t).warning = some "" := by
  decide

/-- C6 (amended): for every successful catalog response, a missing `matches`
field defaults to the empty list, a present non-empty `warning` is passed
through verbatim (and does not erase the matches: both are published), while
a present but empty `warning` is treated like an absent one — the previously
published warning value is left in place. -/
theorem C6_parseOutcome (s : AppState) (j : Nat) (b : SearchResponse) :
    (step s (Ev.fetchRet j (FetchResult.ok b))).1.«matches» = b.«matches».getD [] ∧
    (∀ w, b.warning = some w → ¬ w = "" →
        (step s (Ev.fetchRet j (FetchResult.ok b))).1.warning = some w) ∧
    (b.warning = none ∨ b.warning = some "" →
        (step s (Ev.fetchRet j (FetchResult.ok b))).1.warning = s.warning) := by
  refine ⟨?_, ?_, ?_⟩
  · cases hb : b.warning with
    | some w => by_cases hw : w = "" <;> simp [step, queryBackendResume, hb, hw]
    | none => simp [step, queryBackendResume, hb]
  · intro w hb hw
    simp [step, queryBackendResume, hb, hw]
  · rintro (hb | hb) <;> simp [step, queryBackendResume, hb]

/-- C6 witness: a response with an absent matches field and a present
non-empty warning publishes the defaulted empty matches and the verbatim
warning. -/
theorem C6_parseOutcome_witness :
    (step init0 (Ev.fetchRet 0 (FetchResult.ok
        { «matches» := none, warning := some "low confidence" }))).1.«matches» =
      (none : Option (List MatchResult)).getD [] ∧
    (step init0 (Ev.fetchRet 0 (FetchResult.ok
        { «matches» := none, warning := some "low confidence" }))).1.warning =
      some "low confidence" :=
  ⟨(C6_parseOutcome init0 0
      { «matches» := none, warning := some "low confidence" }).1,
   (C6_parseOutcome init0 0
      { «matches» := none, warning := some "low confidence" }).2.1
     "low confidence" rfl (by decide)⟩

/-- C5: when recognition succeeds with non-empty (after trimming) text and
the catalog call then fails — a transport rejection or a non-2xx response —
the settled recognize step has already cleared the matches and published the
text, and the failing fetch step only sets the corresponding generic warning
(and bookkeeping): matches stay empty rather than stale, loading stays off,
and the recognized text stays published, i.e. the Done-with-warning shape
rather than the failure shape. -/
theorem C5_catalogFailure (s : AppState) (j : Nat) (d : Option String)
    (body : String) (h : ¬ jsTrim (extractText d) = "") :
    step s (Ev.recognizeRet j (RecogResult.success d)) =
      ({ s with pendingRecog := s.pendingRecog.erase j,
                ocrText := extractText d, loadingOcr := false,
                «matches» := [], warning := none,
                pendingFetch := j :: s.pendingFetch },
       [Effect.fetchEff j (extractText d)]) ∧
    (∀ s1 : AppState,
        (step s1 (Ev.fetchRet j FetchResult.reject)).1 =
          { s1 with pendingFetch := s1.pendingFetch.erase j,
                    warning := some "Network error when contacting backend." }) ∧
    (∀ s1 : AppState,
        (step s1 (Ev.fetchRet j (FetchResult.notOk body))).1 =
          { s1 with pendingFetch := s1.pendingFetch.erase j,
                    warning := some "Server error when searching. Check backend." }) := by
  have hne : ¬ extractText d = "" := by
    intro he
    exact h (by rw [he]; rfl)
  refine ⟨?_, fun s1 => rfl, fun s1 => rfl⟩
  simp [step, onRecognize, runOcrResume, queryBackendStart, hne, h]

/-- C5 witness: the scenario text with a rejected transport and a 500-style
response from the initial state. -/
theorem C5_catalogFailure_witness :
    step init0 (Ev.recognizeRet 0 (RecogResult.success (some "PARACETAMOL 500mg"))) =
      ({ init0 with pendingRecog := init0.pendingRecog.erase 0,
                    ocrText := extractText (some "PARACETAMOL 500mg"),
                    loadingOcr := false, «matches» := [], warning := none,
                    pendingFetch := 0 :: init0.pendingFetch },
       [Effect.fetchEff 0 (extractText (some "PARACETAMOL 500mg"))]) ∧
    (step init0 (Ev.fetchRet 0 FetchResult.reject)).1 =
      { init0 with pendingFetch := init0.pendingFetch.erase 0,
                   warning := some "Network error when contacting backend." } ∧
    (step init0 (Ev.fetchRet 0 (FetchResult.notOk "oops"))).1 =
      { init0 with pendingFetch := init0.pendingFetch.erase 0,
                   warning := some "Server error when searching. Check backend." } :=
  ⟨(C5_catalogFailure init0 0 (some "PARACETAMOL 500mg") "oops" (by decide)).1,
   (C5_catalogFailure init0 0 (some "PARACETAMOL 500mg") "oops" (by decide)).2.1 init0,
   (C5_catalogFailure init0 0 (some "PARACETAMOL 500mg") "oops" (by decide)).2.2 init0⟩

/-- C9: for a numeric score the displayed confidence is the inverted
percentage rounded and clamped into the range 0 to 100; inside the unit
interval the clamp is the identity, so the displayed value is exactly the
rounded inverted percentage; and the scenario score of one tenth displays as
90 percent. -/
theorem C9_confidence :
    (∀ q : ℚ, 0 ≤ displayedPercent q ∧ displayedPercent q ≤ 100) ∧
    (∀ q : ℚ, 0 ≤ q → q ≤ 1 → displayedPercent q = mathRound ((1 - q) * 100)) ∧
    scoreToPercent (some (1/10)) = "90%" := by
  refine ⟨?_, ?_, ?_⟩
  · intro q
    unfold displayedPercent
    exact ⟨le_max_left 0 _, max_le (by norm_num) (min_le_left _ _)⟩
  · intro q h0 h1
    unfold displayedPercent
    have hnn : 0 ≤ mathRound ((1 - q) * 100) := mathRound_nonneg (by linarith)
    have hle : mathRound ((1 - q) * 100) ≤ 100 := mathRound_le_100 (by linarith)
    rw [min_eq_right hle, max_eq_right hnn]
  · have hfl : (Int.floor (((1 : ℚ) - 1/10) * 100 + 1/2) : ℤ) = 90 := by
      rw [Int.floor_eq_iff]
      constructor <;> push_cast <;> norm_num
    have h90 : displayedPercent (1/10 : ℚ) = 90 := by
      unfold displayedPercent mathRound
      rw [hfl]
      omega
    show toString (displayedPercent (1/10 : ℚ)) ++ "%" = "90%"
    rw [h90]
    rfl

/-- C9 witness: the in-range identity applied at the scenario score. -/
theorem C9_confidence_witness :
    displayedPercent (1/10 : ℚ) = mathRound ((1 - 1/10) * 100) :=
  C9_confidence.2.1 (1/10) (by norm_num) (by norm_num)

/-- The first element of a scanl is its start value. -/
lemma scanl_head (f : ℤ → (String × Option ℚ) → ℤ) (b : ℤ)
    (l : List (String × Option ℚ)) : (List.scanl f b l).head? = some b := by
  cases l <;> rfl

/-- Definitional unfolding of scanl on a cons cell. -/
lemma scanl_cons_def (f : ℤ → (String × Option ℚ) → ℤ) (b : ℤ)
    (n : String × Option ℚ) (l : List (String × Option ℚ)) :
    List.scanl f b (n :: l) = b :: List.scanl f (f b n) l := by
  rw [List.scanl_cons]
  rfl

/-- Invariant for the folded logger stream: starting from an in-range value
bounded by the next recognition update, the produced value sequence is
non-decreasing and in range. -/
lemma progress_invariant (ns : List (String × Option ℚ)) :
    ∀ cur : ℤ, 0 ≤ cur → cur ≤ 100 →
      (recogProgresses ns).Chain' (fun a b => a ≤ b) →
      (∀ p ∈ recogProgresses ns, 0 ≤ p ∧ p ≤ 1) →
      (∀ p, (recogProgresses ns).head? = some p → cur ≤ mathRound (p * 100)) →
      (List.scanl loggerStep cur ns).Chain' (fun a b => a ≤ b) ∧
        ∀ v ∈ List.scanl loggerStep cur ns, 0 ≤ v ∧ v ≤ 100 := by
  induction ns with
  | nil =>
      intro cur h0 h1 _ _ _
      refine ⟨by simp, ?_⟩
      intro v hv
      simp [List.scanl] at hv
      subst hv
      exact ⟨h0, h1⟩
  | cons n rest ih =>
      intro cur h0 h1 hchain hrange hhead
      obtain ⟨st, p⟩ := n
      rw [scanl_cons_def]
      by_cases hs : st = "recognizing text"
      · cases p with
        | none =>
            have hstep : loggerStep cur (st, none) = cur := by
              simp [loggerStep, loggerUpdate, hs]
            have hrp : recogProgresses ((st, none) :: rest) = recogProgresses rest := by
              simp [recogProgresses, hs]
            rw [hrp] at hchain hrange hhead
            have hrec := ih cur h0 h1 hchain hrange hhead
            rw [hstep]
            refine ⟨List.chain'_cons'.mpr ⟨?_, hrec.1⟩, ?_⟩
            · intro y hy
              rw [scanl_head] at hy
              simp only [Option.mem_some_iff] at hy
              subst hy
              exact le_rfl
            · intro v hv
              rcases List.mem_cons.mp hv with h | h
              · subst h; exact ⟨h0, h1⟩
              · exact hrec.2 v h
        | some q =>
            have hstep : loggerStep cur (st, some q) = mathRound (q * 100) := by
              simp [loggerStep, loggerUpdate, hs]
            have hrp : recogProgresses ((st, some q) :: rest) =
                q :: recogProgresses rest := by
              simp [recogProgresses, hs]
            rw [hrp] at hchain hrange hhead
            have hq : 0 ≤ q ∧ q ≤ 1 := hrange q (List.mem_cons_self _ _)
            have hcur2 : cur ≤ mathRound (q * 100) := hhead q rfl
            have h02 : 0 ≤ mathRound (q * 100) := mathRound_nonneg hq.1
            have h12 : mathRound (q * 100) ≤ 100 := mathRound_le_100 hq.2
            have hchain2 := (List.chain'_cons'.mp hchain).2
            have hhead2 : ∀ r, (recogProgresses rest).head? = some r →
                mathRound (q * 100) ≤ mathRound (r * 100) := by
              intro r hr
              exact mathRound_mono ((List.chain'_cons'.mp hchain).1 r (hr ▸ rfl))
            have hrange2 : ∀ r ∈ recogProgresses rest, 0 ≤ r ∧ r ≤ 1 :=
              fun r hr => hrange r (List.mem_cons_of_mem _ hr)
            have hrec := ih (mathRound (q * 100)) h02 h12 hchain2 hrange2 hhead2
            rw [hstep]
            refine ⟨List.chain'_cons'.mpr ⟨?_, hrec.1⟩, ?_⟩
            · intro y hy
              rw [scanl_head] at hy
              simp only [Option.mem_some_iff] at hy
              subst hy
              exact hcur2
            · intro v hv
              rcases List.mem_cons.mp hv with h | h
              · subst h; exact ⟨h0, h1⟩
              · exact hrec.2 v h
      · have hstep : loggerStep cur (st, p) = cur := by
          simp [loggerStep, loggerUpdate, hs]
        have hrp : recogProgresses ((st, p) :: rest) = recogProgresses rest := by
          simp [recogProgresses, hs]
        rw [hrp] at hchain hrange hhead
        have hrec := ih cur h0 h1 hchain hrange hhead
        rw [hstep]
        refine ⟨List.chain'_cons'.mpr ⟨?_, hrec.1⟩, ?_⟩
        · intro y hy
          rw [scanl_head] at hy
          simp only [Option.mem_some_iff] at hy
          subst hy
          exact le_rfl
        · intro v hv
          rcases List.mem_cons.mp hv with h | h
          · subst h; exact ⟨h0, h1⟩
          · exact hrec.2 v h

/-- C7: assuming the engine sends recognition-stage progress values in the
unit interval in non-decreasing order (the ordering the progress channel
guarantees), the published progress sequence of a single job is
non-decreasing and bounded in the range 0 to 100; moreover only
recognition-stage messages carrying a number update the value — any other
stage, and a recognition message without a numeric progress, leave it
unchanged — and an updating message sets it to the progress times 100
rounded to the nearest integer. -/
theorem C7_progressMonotone (ns : List (String × Option ℚ))
    (hchain : (recogProgresses ns).Chain' (fun a b => a ≤ b))
    (hrange : ∀ p ∈ recogProgresses ns, 0 ≤ p ∧ p ≤ 1) :
    ((progressTrace ns).Chain' (fun a b => a ≤ b) ∧
      ∀ v ∈ progressTrace ns, 0 ≤ v ∧ v ≤ 100) ∧
    (∀ st p cur, ¬ st = "recognizing text" → loggerUpdate st p cur = cur) ∧
    (∀ cur, loggerUpdate "recognizing text" none cur = cur) ∧
    (∀ p cur, loggerUpdate "recognizing text" (some p) cur = mathRound (p * 100)) := by
  refine ⟨?_, ?_, ?_, ?_⟩
  · have hhead : ∀ p, (recogProgresses ns).head? = some p →
        (0 : ℤ) ≤ mathRound (p * 100) := by
      intro p hp
      have hmem : p ∈ recogProgresses ns := by
        cases hns : recogProgresses ns with
        | nil => rw [hns] at hp; cases hp
        | cons a l =>
            rw [hns] at hp
            simp only [List.head?_cons, Option.some_inj] at hp
            subst hp
            exact List.mem_cons_self _ _
      exact mathRound_nonneg (hrange p hmem).1
    exact progress_invariant ns 0 le_rfl (by norm_num) hchain hrange hhead
  · intro st p cur hst
    simp [loggerUpdate, hst]
  · intro cur
    simp [loggerUpdate]
  · intro p cur
    simp [loggerUpdate]

/-- C7 witness: a concrete engine script with a non-recognition stage and
three recognition updates. -/
theorem C7_progressMonotone_witness :
    (progressTrace [("loading tesseract", some 1), ("recognizing text", some 0),
        ("recognizing text", some (1/2)), ("recognizing text", some 1)]).Chain'
      (fun a b => a ≤ b) := by
  have hrp : recogProgresses [("loading tesseract", some 1), ("recognizing text", some 0),
      ("recognizing text", some (1/2)), ("recognizing text", some 1)] =
      [0, 1/2, 1] := rfl
  exact (C7_progressMonotone _
    (by rw [hrp]; refine List.Chain'.cons (by norm_num) ?_
        exact List.chain'_pair.mpr (by norm_num))
    (by rw [hrp]
        intro p hp
        rcases List.mem_cons.mp hp with h | hp2
        · subst h; norm_num
        rcases List.mem_cons.mp hp2 with h | hp3
        · subst h; norm_num
        rcases List.mem_cons.mp hp3 with h | hp4
        · subst h; norm_num
        · cases hp4)).1.1
